import Mathlib

/-!
Verification of the SWIFT tag grammar registry and extraction engine
(`lib/tags.js` together with its field-codec helpers `BankDate` /
`BankAmount` from `lib/helperModels.js`).

Strings are modelled as Lean `String` / `List Char`; JS `Date` objects are
modelled as `Option Int` (days since the Unix epoch, `none` = Invalid Date);
decimal values produced by bignumber.js are modelled exactly as a scaled
decimal `Dec` (integer mantissa over a power of ten), which is faithful
because every operation the code performs on them (multiply by 100, round
to an integer, divide by 100) is exact at bignumber.js's default precision
settings.  `Dec.toRat` interprets such a value as a rational number.
-/

set_option maxRecDepth 100000

deriving instance DecidableEq for Except

/-- Character class `\d` of the JS regexes (ASCII digits). -/
def isDig (c : Char) : Bool := 48 ≤ c.toNat && c.toNat ≤ 57

/-- Numeric value of an ASCII digit. -/
def digVal (c : Char) : Nat := c.toNat - 48

/-- Character class `[A-Z]` of the JS regexes. -/
def isUpperAZ (c : Char) : Bool := 65 ≤ c.toNat && c.toNat ≤ 90

/-- JS regex `.` (without the `s` flag): any char except the four
ECMAScript line terminators `\n`, `\r`, U+2028, U+2029. -/
def dotChar (c : Char) : Bool :=
  !(c = '\n' || c = '\r' || c = Char.ofNat 0x2028 || c = Char.ofNat 0x2029)

/-- Value of a digit string (used for JS `parseInt` / `Number` on digits). -/
def digitsToNat (ds : List Char) : Nat :=
  ds.foldl (fun a c => a * 10 + digVal c) 0

/-- An exact decimal `m / 10^s`, the value representation bignumber.js
uses for everything this code computes. -/
structure Dec where
  m : Int
  s : Nat
deriving DecidableEq

/-- Rational value of a `Dec`. -/
def Dec.toRat (d : Dec) : Rat := (d.m : Rat) / (10 : Rat) ^ d.s

/-- Negation of a `Dec` (bignumber.js `multipliedBy(-1)`, exact). -/
def Dec.neg (d : Dec) : Dec := ⟨-d.m, d.s⟩

/-- Model of `multipliedBy(100)` on a `Dec` (exact). -/
def Dec.mul100 (d : Dec) : Dec := ⟨d.m * 100, d.s⟩

/-- bignumber.js `integerValue()` with the library's default rounding mode
`ROUND_HALF_UP` (mode 4): round to the nearest integer, ties away from
zero.  `⌊m/p + 1/2⌋ = ⌊(2m+p)/(2p)⌋` for the non-negative case, mirrored
for the negative one. -/
def Dec.roundHalfUp (d : Dec) : Int :=
  let p : Int := (10 : Int) ^ d.s
  if 0 ≤ d.m then Int.fdiv (2 * d.m + p) (2 * p)
  else -Int.fdiv (2 * (-d.m) + p) (2 * p)

/-- Exact decimal value of a literal `ip . fp × 10^e`. -/
def decOfDigits (ip fp : List Char) (e : Int) : Dec :=
  let m : Int := (digitsToNat (ip ++ fp) : Int)
  if 0 ≤ e then ⟨m * (10 : Int) ^ e.toNat, fp.length⟩
  else ⟨m, fp.length + (-e).toNat⟩

/-- Exponent suffix `(e[+-]?\d+)?` of bignumber.js's numeric-string grammar;
`none` means the remaining input is not a valid (possibly empty) suffix. -/
def expPart : List Char → Option Int
  | [] => some 0
  | c :: rest =>
    if c = 'e' ∨ c = 'E' then
      match rest with
      | '+' :: ds => if ds ≠ [] ∧ ds.all isDig then some (digitsToNat ds) else none
      | '-' :: ds => if ds ≠ [] ∧ ds.all isDig then some (-(digitsToNat ds : Int)) else none
      | ds => if ds ≠ [] ∧ ds.all isDig then some (digitsToNat ds) else none
    else none

/-- Unsigned part `(\d+(\.\d*)?|\.\d+)(e[+-]?\d+)?` of bignumber.js's
base-10 string grammar (its `isNumeric` test), with the resulting exact
magnitude.  `none` models NaN. -/
def bigNumMag (cs : List Char) : Option Dec :=
  let ip := cs.takeWhile isDig
  let rest1 := cs.drop ip.length
  match rest1 with
  | '.' :: rest2 =>
    let fp := rest2.takeWhile isDig
    let rest3 := rest2.drop fp.length
    if ip.isEmpty ∧ fp.isEmpty then none
    else (expPart rest3).map (fun e => decOfDigits ip fp e)
  | _ =>
    if ip.isEmpty then none
    else (expPart rest1).map (fun e => decOfDigits ip [] e)

/-- A bignumber.js value constructed from a string: the sign is kept
separately from the magnitude because `BigNumber('-0').isNegative()` is
`true`.  Modelled from bignumber.js's base-10 string grammar
`^-?(\d+(\.\d*)?|\.\d+)(e[+-]?\d+)?$` (its hex/`Infinity` forms, never
produced by this code's call sites, are mapped to NaN). -/
structure BigNum where
  neg : Bool
  mag : Dec
deriving DecidableEq

/-- Model of `BigNumber(str)` for a base-10 string; `none` models NaN. -/
def bigNumberParseL (cs : List Char) : Option BigNum :=
  match cs with
  | '-' :: rest => (bigNumMag rest).map (fun m => ⟨true, m⟩)
  | _ => (bigNumMag cs).map (fun m => ⟨false, m⟩)

/-- Numeric value of a `BigNumber`. -/
def bnValue (bn : BigNum) : Dec := if bn.neg then bn.mag.neg else bn.mag

/-- Model of `String.prototype.replace(',', '.')`: replace the FIRST comma only. -/
def replaceFirstComma : List Char → List Char
  | [] => []
  | c :: rest => if c = ',' then '.' :: rest else c :: replaceFirstComma rest

/-- Model of `BankAmount.parse` up to (and including) the sign application, i.e.
everything before the final
`amount.multipliedBy(100).integerValue().dividedBy(100)` line. -/
def parseAmountSigned (dcmark amountStr : String) : Except String Dec :=
  let mcs := dcmark.toList
  let eOrR : Option Char := if mcs.length = 2 then mcs.head? else none
  let dc : String := if mcs.length = 2 then String.mk (mcs.drop 1) else dcmark
  let eOrRBad : Bool :=
    match eOrR with
    | some c => !(c = 'E' || c = 'R')
    | none => false
  if eOrRBad then .error ("Not a reversal/expected mark: " ++ dcmark)
  else if ¬(dc = "D" ∨ dc = "C") then .error ("Wrong debit/credit mark: " ++ dcmark)
  else
    match bigNumberParseL (replaceFirstComma amountStr.toList) with
    | none => .error ("Amount cannot be parsed: " ++ amountStr)
    | some bn =>
      if bn.neg then .error ("Positive amount string expected: " ++ amountStr)
      else
        let amount := bnValue bn
        let amount := if dc = "D" then amount.neg else amount
        let amount := if eOrR = some 'R' then amount.neg else amount
        .ok amount

/-- Model of `BankAmount.parse(dcmark, amountStr)`, as a rational number of the
returned bignumber.js value
`amount.multipliedBy(100).integerValue().dividedBy(100)`. -/
def parseAmount (dcmark amountStr : String) : Except String Rat :=
  (parseAmountSigned dcmark amountStr).map
    (fun a => Dec.toRat ⟨a.mul100.roundHalfUp, 2⟩)

/-- JS `parseInt(s, 10)`: optional sign then the longest leading digit run,
trailing junk ignored; `none` models NaN.  (The leading-whitespace skipping
of `parseInt` is omitted: every call site passes sign/digit-only strings.) -/
def jsParseIntOpt (s : String) : Option Int :=
  let cs := s.toList
  let p : Int × List Char :=
    match cs with
    | c :: r => if c = '-' then (-1, r) else if c = '+' then (1, r) else (1, c :: r)
    | [] => (1, [])
  let ds := p.2.takeWhile isDig
  if ds.isEmpty then none else some (p.1 * (digitsToNat ds : Int))

/-- JS `Number(s)` followed by ECMAScript `ToIntegerOrInfinity` truncation
(as applied by `Date.UTC` to its day argument): `none` models NaN.
Modelled from the ECMAScript decimal forms (empty string is `0`;
`Infinity`/hex forms, never produced by call sites, map to NaN;
leading/trailing whitespace omitted as for `jsParseIntOpt`). -/
def jsNumberIntTrunc (s : String) : Option Int :=
  let toTrunc : Dec → Int := fun d => Int.tdiv d.m ((10 : Int) ^ d.s)
  match s.toList with
  | [] => some 0
  | '-' :: r => (bigNumMag r).map (fun d => -(toTrunc d))
  | '+' :: r => (bigNumMag r).map toTrunc
  | cs => (bigNumMag cs).map toTrunc

/-- Days since the Unix epoch of the proleptic-Gregorian civil date
`(y, m, d)` with `m ∈ [1,12]` (`d` may be out of range: the formula is
linear in `d`, matching ECMAScript `MakeDay` day overflow). -/
def daysFromCivil (y m d : Int) : Int :=
  let y1 := if m ≤ 2 then y - 1 else y
  let era := Int.fdiv y1 400
  let yoe := y1 - era * 400
  let mp := if m ≤ 2 then m + 9 else m - 3
  let doy := Int.fdiv (153 * mp + 2) 5 + d - 1
  let doe := yoe * 365 + Int.fdiv yoe 4 - Int.fdiv yoe 100 + doy
  era * 146097 + doe - 719468

/-- ECMAScript `Date.UTC(y, monthIndex, day)` (`MakeDay`): years 0..99 map
to 1900+y, the month index is normalised into the year with floor
division/modulus, and the day is added without range validation.  The
result is in days since the epoch (day resolution suffices: no call site
supplies time-of-day components). -/
def dateUTC (y mi d : Int) : Int :=
  let y1 := if 0 ≤ y ∧ y ≤ 99 then y + 1900 else y
  let y2 := y1 + Int.fdiv mi 12
  let m2 := Int.emod mi 12 + 1
  daysFromCivil y2 m2 d

/-- The `new Date(Date.UTC(fullyear, parseInt(month) - 1, day))` tail of
`BankDate.parse`, with the already-adjusted year. -/
def bankDateParseFull (fullyear : Int) (month day : String) : Option Int :=
  match jsParseIntOpt month, jsNumberIntTrunc day with
  | some mi, some d => some (dateUTC fullyear (mi - 1) d)
  | _, _ => none

/-- Model of `BankDate.parse(year, month, day)`: 2-digit years become 2000-based;
`none` models an Invalid Date. -/
def bankDateParse (year month day : String) : Option Int :=
  match jsParseIntOpt year with
  | none => none
  | some y0 => bankDateParseFull (if y0 < 100 then y0 + 2000 else y0) month day

/-- The shared `Tag` extraction engine (`Tag.prototype._parse`): run the
rule's pattern once against the data; no match is the hard failure
`cannot parse tag <id>: <data>`; on a match, project the captured groups
(which may itself fail, e.g. on a bad amount). -/
def runTag {μ φ : Type} (id : String) (matcher : String → Option μ)
    (extract : μ → Except String φ) (data : String) : Except String φ :=
  match matcher data with
  | none => .error ("Cannot parse tag " ++ id ++ ": " ++ data)
  | some m => extract m

/-- Exactly `n` characters of class `p` (regex `X{n}` for a one-char class
`X`), returning the captured run and the rest. -/
def takeN (p : Char → Bool) : Nat → List Char → Option (List Char × List Char)
  | 0, cs => some ([], cs)
  | _ + 1, [] => none
  | n + 1, c :: cs =>
    if p c then (takeN p n cs).map (fun g => (c :: g.1, g.2)) else none

/-- Greedy bounded repetition of a one-char class (regex `X{0,max}`):
longer captures are tried first, backtracking into the continuation `k`. -/
def greedyTake {α : Type} (p : Char → Bool) (maxN : Nat) (cs : List Char)
    (k : List Char → List Char → Option α) : Option α :=
  match maxN, cs with
  | 0, _ => k [] cs
  | _ + 1, [] => k [] []
  | n + 1, c :: rest =>
    if p c then (greedyTake p n rest (fun g r => k (c :: g) r)) <|> k [] (c :: rest)
    else k [] cs

/-- Captured groups of the tag 61 (`TagStatementLine`) pattern
`^(\d{2})(\d{2})(\d{2})((\d{2})(\d{2}))?([E|R]?[DC])([A-Z])?([0-9,]{0,16})`
`([A-Z][A-Z0-9]{3})([^/\n]{0,16})(//(.{0,16}))?(\n(.{0,34}))?`.
`g4` bundles groups 5 and 6, `g13`/`g15` are the inner captures of the
optional bank-reference and extra-details groups. -/
structure Match61 where
  g1 : List Char
  g2 : List Char
  g3 : List Char
  g4 : Option (List Char × List Char)
  g7 : List Char
  g8 : Option Char
  g9 : List Char
  g10 : List Char
  g11 : List Char
  g13 : Option (List Char)
  g15 : Option (List Char)
deriving DecidableEq

/-- Backtracking matcher for the tag 61 pattern, applied at the start of
the data (trailing unmatched content is ignored, as for all `exec`-once
rules). -/
def match61 (cs : List Char) : Option Match61 :=
  (takeN isDig 2 cs).bind fun (g1, r1) =>
  (takeN isDig 2 r1).bind fun (g2, r2) =>
  (takeN isDig 2 r2).bind fun (g3, r3) =>
  let afterMark : Option (List Char × List Char) → List Char → List Char → Option Match61 :=
    fun g4 g7 r =>
      let afterFunds : Option Char → List Char → Option Match61 := fun g8 r =>
        greedyTake (fun c => isDig c || c = ',') 16 r (fun g9 r =>
          (takeN isUpperAZ 1 r).bind fun (t1, ra) =>
          (takeN (fun c => isUpperAZ c || isDig c) 3 ra).bind fun (t3, rb) =>
          greedyTake (fun c => !(c = '/' || c = '\n')) 16 rb (fun g11 rc =>
            let afterBank : Option (List Char) → List Char → Option Match61 := fun g13 rd =>
              (match rd with
               | '\n' :: rd2 => greedyTake dotChar 34 rd2 (fun g15 _ =>
                   some ⟨g1, g2, g3, g4, g7, g8, g9, t1 ++ t3, g11, g13, some g15⟩)
               | _ => none) <|>
              some ⟨g1, g2, g3, g4, g7, g8, g9, t1 ++ t3, g11, g13, none⟩
            (match rc with
             | '/' :: '/' :: rc2 =>
               greedyTake dotChar 16 rc2 (fun g13 rd => afterBank (some g13) rd)
             | _ => none) <|> afterBank none rc))
      (match r with
       | c :: r2 => if isUpperAZ c then afterFunds (some c) r2 else none
       | [] => none) <|> afterFunds none r
  let tryMark : Option (List Char × List Char) → List Char → Option Match61 := fun g4 r =>
    (match r with
     | c0 :: c1 :: r2 =>
       if (c0 = 'E' || c0 = '|' || c0 = 'R') && (c1 = 'D' || c1 = 'C') then
         afterMark g4 [c0, c1] r2
       else none
     | _ => none) <|>
    (match r with
     | c0 :: r2 => if c0 = 'D' || c0 = 'C' then afterMark g4 [c0] r2 else none
     | _ => none)
  (match r3 with
   | p :: q :: u :: v :: r4 =>
     if isDig p && isDig q && isDig u && isDig v then
       tryMark (some ([p, q], [u, v])) r4
     else none
   | _ => none) <|> tryMark none r3

/-- Field record of tag 61.  `entryDate` is `''` (modelled `none`) or a
date; `date`/`entryDate` dates are `Option Int` epoch days (`none` =
Invalid Date). -/
structure Fields61 where
  date : Option Int
  entryDate : Option (Option Int)
  fundsCode : String
  amount : Rat
  isReversal : Bool
  transactionType : String
  reference : String
  bankReference : String
  extraDetails : String
  creditDebitIndicator : String
deriving DecidableEq

/-- Model of `TagStatementLine._extractFields`: projection of the matched groups;
fails iff `BankAmount.parse` on (mark, amount digits) fails. -/
def extract61 (m : Match61) : Except String Fields61 :=
  match parseAmount (String.mk m.g7) (String.mk m.g9) with
  | .error e => .error e
  | .ok a =>
    .ok
      { date := bankDateParse (String.mk m.g1) (String.mk m.g2) (String.mk m.g3)
        entryDate := m.g4.map (fun p =>
          bankDateParse (String.mk m.g1) (String.mk p.1) (String.mk p.2))
        fundsCode := match m.g8 with | some c => String.mk [c] | none => ""
        amount := a
        isReversal := match m.g7 with | c :: _ => c = 'R' | [] => false
        transactionType := String.mk m.g10
        reference := String.mk m.g11
        bankReference := (m.g13.map String.mk).getD ""
        extraDetails := (m.g15.map String.mk).getD ""
        creditDebitIndicator := String.mk m.g7 }

/-- Model of `TagStatementLine` (tag 61) as a whole. -/
def parseTag61 (data : String) : Except String Fields61 :=
  runTag "61" (fun d => match61 d.toList) extract61 data

/-- Field record of tag 20 (`TagTransactionReferenceNumber`). -/
structure Fields20 where
  transactionReference : String
deriving DecidableEq

/-- Field record of tag 21 (`TagRelatedReference`). -/
structure Fields21 where
  relatedReference : String
deriving DecidableEq

/-- Field record of tag 25 (`TagAccountIdentification`). -/
structure Fields25 where
  accountIdentification : String
deriving DecidableEq

/-- Field record of tag NS (`TagNonSwift`). -/
structure FieldsNS where
  nonSwift : String
deriving DecidableEq

/-- Field record of tag 86 (`TagTransactionDetails`). -/
structure Fields86 where
  transactionDetails : String
deriving DecidableEq

/-- Pattern `^(.{0,n})`: the greedy bounded dot-run at the start of the data — the
longest prefix of non-line-terminator characters, capped at `n`.  Always
matches. -/
def matchDotBounded (n : Nat) (cs : List Char) : List Char :=
  (cs.takeWhile dotChar).take n

/-- Model of `TagTransactionReferenceNumber` (tag 20), pattern `^(.{0,16})`. -/
def parseTag20 (data : String) : Except String Fields20 :=
  runTag "20" (fun d => some (matchDotBounded 16 d.toList))
    (fun g => .ok ⟨String.mk g⟩) data

/-- Model of `TagRelatedReference` (tag 21), pattern `^(.{0,16})`. -/
def parseTag21 (data : String) : Except String Fields21 :=
  runTag "21" (fun d => some (matchDotBounded 16 d.toList))
    (fun g => .ok ⟨String.mk g⟩) data

/-- Model of `TagAccountIdentification` (tag 25), pattern `^(.{0,35})`. -/
def parseTag25 (data : String) : Except String Fields25 :=
  runTag "25" (fun d => some (matchDotBounded 35 d.toList))
    (fun g => .ok ⟨String.mk g⟩) data

/-- Model of `TagNonSwift` (tag NS), pattern `^(.*)`: the whole first line. -/
def parseTagNS (data : String) : Except String FieldsNS :=
  runTag "NS" (fun d => some (d.toList.takeWhile dotChar))
    (fun g => .ok ⟨String.mk g⟩) data

/-- Model of `TagTransactionDetails` (tag 86), pattern `^([\s\S]{0,390})`: `[\s\S]`
matches every character, so this is a plain prefix of length ≤ 390. -/
def parseTag86 (data : String) : Except String Fields86 :=
  runTag "86" (fun d => some (d.toList.take 390))
    (fun g => .ok ⟨String.mk g⟩) data

/-- Captured groups of the tag 28 pattern
`^(\d{1,5})(\/(\d{1,5}))?(\/(\d{1,5}))?`. -/
structure Match28 where
  g1 : List Char
  g3 : Option (List Char)
  g5 : Option (List Char)
deriving DecidableEq

/-- Matcher for tag 28. -/
def match28 (cs : List Char) : Option Match28 :=
  greedyTake isDig 5 cs (fun g1 r1 =>
    if g1.isEmpty then none
    else
      let opt2 : Option (List Char) → List Char → Option Match28 := fun g3 r =>
        (match r with
         | '/' :: r2 =>
           greedyTake isDig 5 r2 (fun g _ => if g.isEmpty then none else some ⟨g1, g3, some g⟩)
         | _ => none) <|> some ⟨g1, g3, none⟩
      (match r1 with
       | '/' :: r2 =>
         greedyTake isDig 5 r2 (fun g r3 => if g.isEmpty then none else opt2 (some g) r3)
       | _ => none) <|> opt2 none r1)

/-- Field record of tag 28 (`TagStatementNumber`). -/
structure Fields28 where
  statementNumber : String
  sequenceNumber : String
  sectionNumber : String
deriving DecidableEq

/-- Model of `TagStatementNumber` (tag 28). -/
def parseTag28 (data : String) : Except String Fields28 :=
  runTag "28" (fun d => match28 d.toList)
    (fun m => .ok ⟨String.mk m.g1, (m.g3.map String.mk).getD "", (m.g5.map String.mk).getD ""⟩)
    data

/-- Captured groups of the 34F pattern `^([A-Z]{3})([A-Z]{1})?(\d{1,15})`. -/
structure Match34F where
  g1 : List Char
  g2 : Option Char
  g3 : List Char
deriving DecidableEq

/-- Matcher for tag 34F (the optional one-letter D/C mark backtracks if the
digits cannot follow it). -/
def match34F (cs : List Char) : Option Match34F :=
  (takeN isUpperAZ 3 cs).bind fun (g1, r1) =>
  let digitsPart : Option Char → List Char → Option Match34F := fun g2 r =>
    greedyTake isDig 15 r (fun g3 _ => if g3.isEmpty then none else some ⟨g1, g2, g3⟩)
  (match r1 with
   | c :: r2 => if isUpperAZ c then digitsPart (some c) r2 else none
   | _ => none) <|> digitsPart none r1

/-- Field record of tag 34F (`TagDebitAndCreditFloorLimit`); the amount is
the plain `BigNumber(match[3])` of a digit string, an exact integer. -/
structure Fields34F where
  currency : String
  dcMark : String
  amount : Int
deriving DecidableEq

/-- Model of `TagDebitAndCreditFloorLimit` (tag 34F). -/
def parseTag34F (data : String) : Except String Fields34F :=
  runTag "34F" (fun d => match34F d.toList)
    (fun m => .ok ⟨String.mk m.g1,
                   (m.g2.map (fun c => String.mk [c])).getD "",
                   (digitsToNat m.g3 : Int)⟩)
    data

/-- Minutes-in-a-day offset value of a 4-digit `HHmm` run. -/
def offsetMinutes : List Char → Int
  | [a, b, c, d] => (digitsToNat [a, b] : Int) * 60 + (digitsToNat [c, d] : Int)
  | _ => 0

/-- Leap year (proleptic Gregorian). -/
def isLeap (y : Int) : Bool :=
  (Int.emod y 4 = 0 && Int.emod y 100 ≠ 0) || Int.emod y 400 = 0

/-- Number of days of month `m` (1-12) in year `y`. -/
def daysInMonth (y : Int) (m : Nat) : Nat :=
  if m = 2 then (if isLeap y then 29 else 28)
  else if m = 4 ∨ m = 6 ∨ m = 9 ∨ m = 11 then 30
  else 31

/-- Model of `BankDate.forOffsetDateTime({date, time, offset})` delegates to
`moment(date + time + offset, 'YYMMDDHmmZZ').toDate()` of the external
moment library.  Model (documented moment semantics): 2-digit year 00-68 →
2000+, 69-99 → 1900+; month/day/hour/minute validated; the signed `±HHmm`
offset subtracted to reach UTC (an unsigned offset, as the literal `'0000'`
passed by tag 13, counts as positive); minutes since the epoch, `none` =
Invalid Date. -/
def forOffsetDateTime (date time off : List Char) : Option Int :=
  match date, time with
  | [y1, y2, mo1, mo2, d1, d2], [h1, h2, mi1, mi2] =>
    if ([y1, y2, mo1, mo2, d1, d2, h1, h2, mi1, mi2]).all isDig then
      let yy := digitsToNat [y1, y2]
      let year : Int := if yy ≤ 68 then 2000 + yy else 1900 + yy
      let mo := digitsToNat [mo1, mo2]
      let dd := digitsToNat [d1, d2]
      let hh := digitsToNat [h1, h2]
      let mi := digitsToNat [mi1, mi2]
      let offMin : Option Int :=
        match off with
        | '+' :: ds => if ds.length = 4 ∧ ds.all isDig then some (offsetMinutes ds) else none
        | '-' :: ds => if ds.length = 4 ∧ ds.all isDig then some (-offsetMinutes ds) else none
        | ds => if ds.length = 4 ∧ ds.all isDig then some (offsetMinutes ds) else none
      match offMin with
      | none => none
      | some om =>
        if 1 ≤ mo ∧ mo ≤ 12 ∧ 1 ≤ dd ∧ dd ≤ daysInMonth year mo ∧ hh ≤ 23 ∧ mi ≤ 59 then
          some (daysFromCivil year (mo : Int) (dd : Int) * 1440 + (hh : Int) * 60 + mi - om)
        else none
    else none
  | _, _ => none

/-- Field record of tags 13D / 13; the timestamp is in minutes since the
epoch, `none` = Invalid Date. -/
structure Fields13D where
  dateTimestamp : Option Int
deriving DecidableEq

/-- Model of `TagDateTimeIndication` (tag 13D), pattern
`^(\d{6})(\d{4})([+-]{1}\d{4})`. -/
def parseTag13D (data : String) : Except String Fields13D :=
  runTag "13D"
    (fun d =>
      (takeN isDig 6 d.toList).bind fun (g1, r1) =>
      (takeN isDig 4 r1).bind fun (g2, r2) =>
      match r2 with
      | c :: r3 =>
        if c = '+' || c = '-' then
          (takeN isDig 4 r3).map (fun g => (g1, g2, c :: g.1))
        else none
      | _ => none)
    (fun m => .ok ⟨forOffsetDateTime m.1 m.2.1 m.2.2⟩) data

/-- Model of `TagDateTimeIndication13` (tag '13'), pattern `^(\d{6})(\d{4})`, offset
fixed to `'0000'`. -/
def parseTag13 (data : String) : Except String Fields13D :=
  runTag "13"
    (fun d =>
      (takeN isDig 6 d.toList).bind fun (g1, r1) =>
      (takeN isDig 4 r1).map (fun g2 => (g1, g2.1)))
    (fun m => .ok ⟨forOffsetDateTime m.1 m.2 ['0', '0', '0', '0']⟩) data

/-- Captured groups of the shared `TagBalance` pattern
`^([DC])(\d{2})(\d{2})(\d{2})([A-Z]{3})([0-9,]{0,16})`. -/
structure MatchBal where
  g1 : Char
  g2 : List Char
  g3 : List Char
  g4 : List Char
  g5 : List Char
  g6 : List Char
deriving DecidableEq

/-- Matcher for the balance family (tags 60 / 62 / 64 / 65). -/
def matchBalance (cs : List Char) : Option MatchBal :=
  match cs with
  | c :: rest =>
    if c = 'D' || c = 'C' then
      (takeN isDig 2 rest).bind fun (g2, r2) =>
      (takeN isDig 2 r2).bind fun (g3, r3) =>
      (takeN isDig 2 r3).bind fun (g4, r4) =>
      (takeN isUpperAZ 3 r4).bind fun (g5, r5) =>
      some ⟨c, g2, g3, g4, g5, (r5.takeWhile (fun c => isDig c || c = ',')).take 16⟩
    else none
  | [] => none

/-- Field record of the balance family (`TagBalance._extractFields`). -/
structure FieldsBalance where
  date : Option Int
  currency : String
  amount : Rat
deriving DecidableEq

/-- Shared `TagBalance` extraction (date, currency, signed amount). -/
def extractBalance (m : MatchBal) : Except String FieldsBalance :=
  match parseAmount (String.mk [m.g1]) (String.mk m.g6) with
  | .error e => .error e
  | .ok a =>
    .ok ⟨bankDateParse (String.mk m.g2) (String.mk m.g3) (String.mk m.g4), String.mk m.g5, a⟩

/-- Model of `TagOpeningBalance` (tag 60). -/
def parseTag60 (data : String) : Except String FieldsBalance :=
  runTag "60" (fun d => matchBalance d.toList) extractBalance data

/-- Model of `TagClosingBalance` (tag 62). -/
def parseTag62 (data : String) : Except String FieldsBalance :=
  runTag "62" (fun d => matchBalance d.toList) extractBalance data

/-- Model of `TagClosingAvailableBalance` (tag 64). -/
def parseTag64 (data : String) : Except String FieldsBalance :=
  runTag "64" (fun d => matchBalance d.toList) extractBalance data

/-- Model of `TagForwardAvailableBalance` (tag 65). -/
def parseTag65 (data : String) : Except String FieldsBalance :=
  runTag "65" (fun d => matchBalance d.toList) extractBalance data

/-- Field record of tags 90D / 90C (`TagNumberAndSumOfEntries`); the amount
is the plain `BigNumber(match[3])` of a digit string. -/
structure Fields90 where
  number : String
  currency : String
  amount : Int
deriving DecidableEq

/-- Matcher for the 90D / 90C pattern `^(\d{1,5})([A-Z]{3})(\d{1,15})`. -/
def match90 (cs : List Char) : Option (List Char × List Char × List Char) :=
  greedyTake isDig 5 cs (fun g1 r1 =>
    if g1.isEmpty then none
    else
      (takeN isUpperAZ 3 r1).bind fun (g2, r2) =>
      greedyTake isDig 15 r2 (fun g3 _ => if g3.isEmpty then none else some (g1, g2, g3)))

/-- Model of `TagNumberAndSumOfEntries` extraction shared by 90D / 90C. -/
def extract90 (m : List Char × List Char × List Char) : Except String Fields90 :=
  .ok ⟨String.mk m.1, String.mk m.2.1, (digitsToNat m.2.2 : Int)⟩

/-- Model of `TagNumberAndSumOfEntriesD` (tag 90D). -/
def parseTag90D (data : String) : Except String Fields90 :=
  runTag "90D" (fun d => match90 d.toList) extract90 data

/-- Model of `TagNumberAndSumOfEntriesC` (tag 90C). -/
def parseTag90C (data : String) : Except String Fields90 :=
  runTag "90C" (fun d => match90 d.toList) extract90 data

/-- One match of the global MB pattern
`(^-\})|(\{(\d):(.*?)($|\}(?=(\{\d:)|$)))`: either the terminator
alternative (whose whole match is exactly the two characters `-\x7d`, the
only way `match[0] === '-\x7d'` holds) or a block with its number digit and
content capture. -/
inductive MBMatch where
  | eob : MBMatch
  | block (num : Char) (content : List Char) : MBMatch
deriving DecidableEq

/-- Lookahead `(?=(\{\d:)|$)` tested after a closing brace. -/
def mbLookahead : List Char → Bool
  | [] => true
  | '{' :: d :: ':' :: _ => isDig d
  | _ => false

/-- Lazy content scan for `(.*?)($|\}(?=(\{\d:)|$))` positioned after
`\{(\d):` — at each length, first try to finish (at end of input via `$`,
or on `\}` whose lookahead holds), else extend the content by one
dot-matching character. -/
def mbContent (d : Char) (acc : List Char) : List Char → Option (MBMatch × List Char)
  | [] => some (.block d acc.reverse, [])
  | c :: rest =>
    if c = '}' && mbLookahead rest then some (.block d acc.reverse, rest)
    else if dotChar c then mbContent d (c :: acc) rest
    else none

/-- The block alternative `\{(\d):(.*?)($|\}(?=(\{\d:)|$))` tried at the
current scan position. -/
def mbTryBlockAt : List Char → Option (MBMatch × List Char)
  | '{' :: d :: ':' :: rest => if isDig d then mbContent d [] rest else none
  | _ => none

/-- One `exec` of the global MB pattern: scan forward from the cursor for
the first position where an alternative matches, returning the match and
the remaining input after it.  `atStart` records whether the cursor is at
absolute position 0, the only place the `^`-anchored terminator
alternative can match. -/
def mbNextMatch (atStart : Bool) : List Char → Option (MBMatch × List Char)
  | [] => none
  | c :: rest =>
    match (match atStart, c, rest with
           | true, '-', '}' :: r2 => some ((MBMatch.eob : MBMatch), r2)
           | _, _, _ => none) <|> mbTryBlockAt (c :: rest) with
    | some r => some r
    | none => mbNextMatch false rest

/-- JS object property assignment `fields[k] = v` on an insertion-ordered
record: overwrite in place, or append a new key. -/
def upsert (fields : List (String × String)) (k v : String) : List (String × String) :=
  match fields with
  | [] => [(k, v)]
  | (k', v') :: rest => if k' = k then (k, v) :: rest else (k', v') :: upsert rest k v

/-- The `_extractFields` loop of `TagMessageBlock`: record the current
match (`EOB` for the terminator, else block number → content), then
`_nextMatch` from the cursor, until no further match.  `fuel` bounds the
iteration count; every match consumes at least two characters, so it never
runs out when started with `rest.length + 1`. -/
def mbCollect : Nat → List (String × String) → MBMatch → List Char → List (String × String)
  | fuel, fields, m, rest =>
    let fields' := match m with
      | .eob => upsert fields "EOB" ""
      | .block d content => upsert fields (String.mk [d]) (String.mk content)
    match fuel, mbNextMatch false rest with
    | _, none => fields'
    | 0, some _ => fields'
    | fuel' + 1, some (m', rest') => mbCollect fuel' fields' m' rest'

/-- Field record of tag MB: the discovered sub-block fields in insertion
order, and the `isStarting` flag (`fields['1'] !== undefined`). -/
structure FieldsMB where
  fields : List (String × String)
  isStarting : Bool
deriving DecidableEq

/-- Model of `TagMessageBlock` (tag MB): the first `exec` comes from the shared
engine (`none` is the `cannot parse` failure), the rest of the global scan
happens inside the extraction. -/
def parseTagMB (data : String) : Except String FieldsMB :=
  runTag "MB" (fun d => mbNextMatch true d.toList)
    (fun m =>
      let fs := mbCollect (m.2.length + 1) [] m.1 m.2
      .ok ⟨fs, (fs.lookup "1").isSome⟩)
    data

/-- A JS value used as a tag id / `Map` key: a number or a string (`Map`
keys compare with SameValueZero, so the number `20` and the string `'20'`
are distinct keys). -/
inductive JsVal where
  | num (n : Int) : JsVal
  | str (s : String) : JsVal
deriving DecidableEq

/-- The concrete tag rules, one per class registered in `TagFactory`. -/
inductive TagKind where
  | transactionReferenceNumber : TagKind
  | relatedReference : TagKind
  | accountIdentification : TagKind
  | statementNumber : TagKind
  | debitAndCreditFloorLimit : TagKind
  | dateTimeIndication : TagKind
  | nonSwift : TagKind
  | openingBalance : TagKind
  | closingBalance : TagKind
  | numberAndSumOfEntriesD : TagKind
  | numberAndSumOfEntriesC : TagKind
  | statementLine : TagKind
  | transactionDetails : TagKind
  | closingAvailableBalance : TagKind
  | forwardAvailableBalance : TagKind
  | messageBlock : TagKind
  | dateTimeIndication13 : TagKind
deriving DecidableEq

/-- The registry built in the `TagFactory` constructor: each class keyed by
its static `ID` (a JS number for the numeric ids, a string otherwise), in
registration order. -/
def tagMap : List (JsVal × TagKind) :=
  [(.num 20, .transactionReferenceNumber),
   (.num 21, .relatedReference),
   (.num 25, .accountIdentification),
   (.num 28, .statementNumber),
   (.str "34F", .debitAndCreditFloorLimit),
   (.str "13D", .dateTimeIndication),
   (.str "NS", .nonSwift),
   (.num 60, .openingBalance),
   (.num 62, .closingBalance),
   (.str "90D", .numberAndSumOfEntriesD),
   (.str "90C", .numberAndSumOfEntriesC),
   (.num 61, .statementLine),
   (.num 86, .transactionDetails),
   (.num 64, .closingAvailableBalance),
   (.num 65, .forwardAvailableBalance),
   (.str "MB", .messageBlock),
   (.str "13", .dateTimeIndication13)]

/-- Model of `Map.prototype.get` on the registry. -/
def mapGet (k : JsVal) : Option TagKind := (tagMap.lookup k)

/-- Model of `isNaN(id)` / `Number.parseInt(id, 10)` as applied to a tag id: a
non-numeric string stays a string, a numeric string becomes a JS number.
(Modelled for the id forms that occur — plain digit strings and
non-numeric ids such as `'NS'`; exotic numeric notations are kept as
strings.) -/
def coerceId : JsVal → JsVal
  | .num n => .num n
  | .str s => if s ≠ "" ∧ s.toList.all isDig then .num (digitsToNat s.toList) else .str s

/-- Model of `tagId.toString()`. -/
def jsValToString : JsVal → String
  | .num n => toString n
  | .str s => s

/-- The composite key `tagId.toString() + (subId ? subId.toString() : '')`. -/
def fullTagId (id : JsVal) (subId : String) : String :=
  jsValToString (coerceId id) ++ subId

/-- The rule lookup `this.tagMap.get(fullTagId) || this.tagMap.get(tagId)`:
the composite (string) key first, then the bare coerced id. -/
def resolveRule (id : JsVal) (subId : String) : Option TagKind :=
  (mapGet (.str (fullTagId id subId))).orElse (fun _ => mapGet (coerceId id))

/-- A constructed tag instance: its kind together with its extracted field
record. -/
inductive TagInstance where
  | transactionReferenceNumber (f : Fields20) : TagInstance
  | relatedReference (f : Fields21) : TagInstance
  | accountIdentification (f : Fields25) : TagInstance
  | statementNumber (f : Fields28) : TagInstance
  | debitAndCreditFloorLimit (f : Fields34F) : TagInstance
  | dateTimeIndication (f : Fields13D) : TagInstance
  | nonSwift (f : FieldsNS) : TagInstance
  | openingBalance (f : FieldsBalance) : TagInstance
  | closingBalance (f : FieldsBalance) : TagInstance
  | numberAndSumOfEntriesD (f : Fields90) : TagInstance
  | numberAndSumOfEntriesC (f : Fields90) : TagInstance
  | statementLine (f : Fields61) : TagInstance
  | transactionDetails (f : Fields86) : TagInstance
  | closingAvailableBalance (f : FieldsBalance) : TagInstance
  | forwardAvailableBalance (f : FieldsBalance) : TagInstance
  | messageBlock (f : FieldsMB) : TagInstance
  | dateTimeIndication13 (f : Fields13D) : TagInstance
deriving DecidableEq

/-- Model of `new tagClass(data)` for a resolved rule. -/
def instantiateTag (k : TagKind) (data : String) : Except String TagInstance :=
  match k with
  | .transactionReferenceNumber => (parseTag20 data).map .transactionReferenceNumber
  | .relatedReference => (parseTag21 data).map .relatedReference
  | .accountIdentification => (parseTag25 data).map .accountIdentification
  | .statementNumber => (parseTag28 data).map .statementNumber
  | .debitAndCreditFloorLimit => (parseTag34F data).map .debitAndCreditFloorLimit
  | .dateTimeIndication => (parseTag13D data).map .dateTimeIndication
  | .nonSwift => (parseTagNS data).map .nonSwift
  | .openingBalance => (parseTag60 data).map .openingBalance
  | .closingBalance => (parseTag62 data).map .closingBalance
  | .numberAndSumOfEntriesD => (parseTag90D data).map .numberAndSumOfEntriesD
  | .numberAndSumOfEntriesC => (parseTag90C data).map .numberAndSumOfEntriesC
  | .statementLine => (parseTag61 data).map .statementLine
  | .transactionDetails => (parseTag86 data).map .transactionDetails
  | .closingAvailableBalance => (parseTag64 data).map .closingAvailableBalance
  | .forwardAvailableBalance => (parseTag65 data).map .forwardAvailableBalance
  | .messageBlock => (parseTagMB data).map .messageBlock
  | .dateTimeIndication13 => (parseTag13 data).map .dateTimeIndication13

/-- Model of `TagFactory.createTag(id, subId, data)`. -/
def createTag (id : JsVal) (subId : String) (data : String) : Except String TagInstance :=
  match resolveRule id subId with
  | none => .error ("Unknown tag " ++ fullTagId id subId)
  | some k => instantiateTag k data

/-- The debit/credit mark `BankAmount.parse` ends up checking: the second
character for a 2-character marker, the whole marker string otherwise. -/
def resultingDc (dcmark : String) : String :=
  if dcmark.toList.length = 2 then String.mk (dcmark.toList.drop 1) else dcmark

/-- The tag 61 match of the sample line `231201C12,50NTRFREF`. -/
def m61ex : Match61 :=
  ⟨['2', '3'], ['1', '2'], ['0', '1'], none, ['C'], none,
   ['1', '2', ',', '5', '0'], ['N', 'T', 'R', 'F'], ['R', 'E', 'F'], none, none⟩

/-- The extracted field record of the sample line `231201C12,50NTRFREF`. -/
def f61ex : Fields61 :=
  { date := some 19692
    entryDate := none
    fundsCode := ""
    amount := Dec.toRat ⟨1250, 2⟩
    isReversal := false
    transactionType := "NTRF"
    reference := "REF"
    bankReference := ""
    extraDetails := ""
    creditDebitIndicator := "C" }

/-- Rounding lemma: `⌊a/p + 1/2⌋`, computed as `fdiv (2a+p) (2p)`, is within `1/2` of
`a/p`: the rounding is to a nearest integer. -/
theorem fdiv_half_near (a p : Int) (hp : 0 < p) :
    |(a : Rat) / (p : Rat) - ((Int.fdiv (2 * a + p) (2 * p)) : Rat)| ≤ 1 / 2 := by
  have h2p : (0 : Int) < 2 * p := by omega
  rw [Int.fdiv_eq_ediv _ (le_of_lt h2p)]
  have hmod := Int.ediv_add_emod (2 * a + p) (2 * p)
  have hr0 : 0 ≤ (2 * a + p) % (2 * p) := Int.emod_nonneg _ (by omega)
  have hrlt : (2 * a + p) % (2 * p) < 2 * p := Int.emod_lt_of_pos _ h2p
  set q := (2 * a + p) / (2 * p) with hq
  set r := (2 * a + p) % (2 * p) with hr
  have key : 2 * a - 2 * p * q = r - p := by omega
  have hpq : (0 : Rat) < (p : Rat) := by exact_mod_cast hp
  have hcast : (2 : Rat) * a - 2 * p * q = (r : Rat) - p := by exact_mod_cast key
  have heq : (a : Rat) / (p : Rat) - (q : Rat) = ((r : Rat) - p) / (2 * p) := by
    rw [← hcast]
    field_simp
    ring
  have hrb : |(r : Rat) - p| ≤ (p : Rat) := by
    rw [abs_le]
    constructor
    · have : (0 : Rat) ≤ (r : Rat) := by exact_mod_cast hr0
      linarith
    · have : (r : Rat) < 2 * p := by exact_mod_cast hrlt
      linarith
  rw [heq, abs_div, abs_of_pos (by linarith : (0 : Rat) < 2 * (p : Rat)),
    div_le_iff₀ (by linarith : (0 : Rat) < 2 * (p : Rat))]
  linarith

/-- Nearness lemma: `Dec.roundHalfUp` rounds to a nearest integer (so in particular it
never truncates a fractional part of more than `1/2`). -/
theorem Dec.roundHalfUp_near (d : Dec) :
    |d.toRat - (d.roundHalfUp : Rat)| ≤ 1 / 2 := by
  obtain ⟨m, s⟩ := d
  have hp : (0 : Int) < (10 : Int) ^ s := pow_pos (by norm_num) s
  have hcast : (((10 : Int) ^ s : Int) : Rat) = (10 : Rat) ^ s := by push_cast; ring
  have toRat_eq : Dec.toRat ⟨m, s⟩ = (m : Rat) / (((10 : Int) ^ s : Int) : Rat) := by
    simp only [Dec.toRat, hcast]
  rcases le_or_lt 0 m with hm | hm
  · rw [toRat_eq,
      show Dec.roundHalfUp ⟨m, s⟩ = Int.fdiv (2 * m + 10 ^ s) (2 * 10 ^ s) from by
        simp [Dec.roundHalfUp, hm]]
    exact fdiv_half_near m _ hp
  · rw [toRat_eq,
      show Dec.roundHalfUp ⟨m, s⟩ = -Int.fdiv (2 * (-m) + 10 ^ s) (2 * 10 ^ s) from by
        simp [Dec.roundHalfUp, if_neg (not_le.mpr hm)]]
    have h := fdiv_half_near (-m) ((10 : Int) ^ s) hp
    rw [show (m : Rat) / (((10 : Int) ^ s : Int) : Rat) -
          ((-Int.fdiv (2 * (-m) + 10 ^ s) (2 * 10 ^ s) : Int) : Rat)
        = -((((-m : Int) : Int) : Rat) / (((10 : Int) ^ s : Int) : Rat) -
            ((Int.fdiv (2 * (-m) + 10 ^ s) (2 * 10 ^ s) : Int) : Rat)) from by
      push_cast; ring]
    rw [abs_neg]
    exact h

/-- Rounding commutes with negation (ties away from zero is symmetric). -/
theorem Dec.roundHalfUp_neg (d : Dec) :
    d.neg.roundHalfUp = -d.roundHalfUp := by
  obtain ⟨m, s⟩ := d
  have hp : (0 : Int) < (10 : Int) ^ s := pow_pos (by norm_num) s
  rcases lt_trichotomy m 0 with hm | hm | hm
  · have h1 : (0 : Int) ≤ -m := by omega
    simp [Dec.neg, Dec.roundHalfUp, h1, not_le.mpr hm]
  · subst hm
    have hz : Int.fdiv ((10 : Int) ^ s) (2 * 10 ^ s) = 0 := by
      rw [Int.fdiv_eq_ediv _ (by omega)]
      exact Int.ediv_eq_zero_of_lt (by omega) (by omega)
    simp [Dec.neg, Dec.roundHalfUp, hz]
  · have h1 : ¬ (0 : Int) ≤ -m := by omega
    simp only [Dec.neg, Dec.roundHalfUp, if_neg h1, if_pos (le_of_lt hm), neg_neg]

/-- C1 (counterexample): the spec claims 2-decimal truncation, so that
`parseAmount("C", "10,005")` would be `10.00`; the code instead applies
bignumber.js `integerValue()` with the default `ROUND_HALF_UP` mode, which
rounds `10.005` up to `10.01`. -/
theorem parseAmount_truncation_counterexample :
    ¬ (parseAmount "C" "10,005" = .ok 10) := by
  rw [parseAmount, show parseAmountSigned "C" "10,005" = .ok ⟨10005, 3⟩ from by decide]
  simp only [Except.map]
  rw [show Dec.mul100 ⟨10005, 3⟩ = ⟨1000500, 3⟩ from by decide,
      show Dec.roundHalfUp ⟨1000500, 3⟩ = 1001 from by decide]
  intro h
  simp only [Except.ok.injEq] at h
  norm_num [Dec.toRat] at h

/-- C1 (amended): for every successfully parsed marker and digit string,
`parseAmount` scales the signed value by 100, rounds it to a NEAREST
integer (ties away from zero, bignumber.js default `ROUND_HALF_UP` — not
truncation), and scales back by 100; in particular
`parseAmount("C", "10,005") = 10.01`. -/
theorem parseAmount_rounds_amended :
    (∀ dcmark amountStr v, parseAmountSigned dcmark amountStr = .ok v →
        parseAmount dcmark amountStr = .ok (Dec.toRat ⟨v.mul100.roundHalfUp, 2⟩) ∧
        |v.mul100.toRat - (v.mul100.roundHalfUp : Rat)| ≤ 1 / 2) ∧
    parseAmount "C" "10,005" = .ok (1001 / 100) := by
  constructor
  · intro dcmark amountStr v h
    exact ⟨by rw [parseAmount, h]; rfl, Dec.roundHalfUp_near _⟩
  · rw [parseAmount, show parseAmountSigned "C" "10,005" = .ok ⟨10005, 3⟩ from by decide]
    simp only [Except.map]
    rw [show Dec.mul100 ⟨10005, 3⟩ = ⟨1000500, 3⟩ from by decide,
        show Dec.roundHalfUp ⟨1000500, 3⟩ = 1001 from by decide]
    norm_num [Dec.toRat]

/-- Witness for the amended C1 theorem at the concrete input. -/
theorem parseAmount_rounds_amended_witness :
    parseAmount "C" "10,005" =
      .ok (Dec.toRat ⟨(Dec.mul100 ⟨10005, 3⟩).roundHalfUp, 2⟩) :=
  (parseAmount_rounds_amended.1 "C" "10,005" ⟨10005, 3⟩ (by decide)).1

/-- Sign relations of `BankAmount.parse` before rounding: relative to a
plain credit, `D` negates, a leading `R` negates again, a leading `E`
changes nothing. -/
theorem parseAmountSigned_markers (a : String) :
    parseAmountSigned "D" a = (parseAmountSigned "C" a).map Dec.neg ∧
    parseAmountSigned "RC" a = (parseAmountSigned "C" a).map Dec.neg ∧
    parseAmountSigned "EC" a = parseAmountSigned "C" a ∧
    parseAmountSigned "RD" a = parseAmountSigned "C" a ∧
    parseAmountSigned "ED" a = (parseAmountSigned "C" a).map Dec.neg := by
  have hneg :
      (match bigNumberParseL (replaceFirstComma a.toList) with
       | none => (.error ("Amount cannot be parsed: " ++ a) : Except String Dec)
       | some bn => if bn.neg then .error ("Positive amount string expected: " ++ a)
                    else .ok ((bnValue bn).neg)) =
      (match bigNumberParseL (replaceFirstComma a.toList) with
       | none => (.error ("Amount cannot be parsed: " ++ a) : Except String Dec)
       | some bn => if bn.neg then .error ("Positive amount string expected: " ++ a)
                    else .ok (bnValue bn)).map Dec.neg := by
    cases bigNumberParseL (replaceFirstComma a.toList) with
    | none => rfl
    | some bn => cases hnn : bn.neg <;> simp [hnn, Except.map]
  have hnegneg :
      (match bigNumberParseL (replaceFirstComma a.toList) with
       | none => (.error ("Amount cannot be parsed: " ++ a) : Except String Dec)
       | some bn => if bn.neg then .error ("Positive amount string expected: " ++ a)
                    else .ok (((bnValue bn).neg).neg)) =
      (match bigNumberParseL (replaceFirstComma a.toList) with
       | none => (.error ("Amount cannot be parsed: " ++ a) : Except String Dec)
       | some bn => if bn.neg then .error ("Positive amount string expected: " ++ a)
                    else .ok (bnValue bn)) := by
    cases bigNumberParseL (replaceFirstComma a.toList) with
    | none => rfl
    | some bn => cases hnn : bn.neg <;> simp [hnn, Dec.neg]
  exact ⟨hneg, hneg, rfl, hnegneg, hneg⟩

/-- Negating the pre-rounding value negates the final rounded value. -/
theorem parseAmount_toRat_neg (w : Dec) :
    Dec.toRat ⟨(w.neg).mul100.roundHalfUp, 2⟩ = -Dec.toRat ⟨w.mul100.roundHalfUp, 2⟩ := by
  have h1 : (w.neg).mul100 = (w.mul100).neg := by
    obtain ⟨m, s⟩ := w
    simp [Dec.neg, Dec.mul100]
  rw [h1, Dec.roundHalfUp_neg]
  simp [Dec.toRat, neg_div]

/-- Evaluation rule for `parseAmount` from a computed signed value. -/
theorem parseAmount_eval (d a : String) (w : Dec) (k : Int) (v : Rat)
    (h : parseAmountSigned d a = .ok w) (hk : w.mul100.roundHalfUp = k)
    (hv : Dec.toRat ⟨k, 2⟩ = v) : parseAmount d a = .ok v := by
  rw [parseAmount, h]
  simp only [Except.map]
  rw [hk, hv]

/-- C3: sign application of `BankAmount.parse` — negate for a `D` mark,
negate again for a leading `R`, leave unchanged for a leading `E`; with
the four concrete values from the spec. -/
theorem parseAmount_sign_rules :
    parseAmount "D" "150,00" = .ok (-150) ∧
    parseAmount "C" "150,00" = .ok 150 ∧
    parseAmount "RD" "150,00" = .ok 150 ∧
    parseAmount "ED" "150,00" = .ok (-150) ∧
    (∀ a v, parseAmount "C" a = .ok v →
        parseAmount "D" a = .ok (-v) ∧ parseAmount "RC" a = .ok (-v) ∧
        parseAmount "EC" a = .ok v ∧ parseAmount "RD" a = .ok v ∧
        parseAmount "ED" a = .ok (-v)) := by
  refine ⟨parseAmount_eval _ _ ⟨-15000, 2⟩ (-15000) (-150) (by decide) (by decide)
            (by norm_num [Dec.toRat]),
          parseAmount_eval _ _ ⟨15000, 2⟩ 15000 150 (by decide) (by decide)
            (by norm_num [Dec.toRat]),
          parseAmount_eval _ _ ⟨15000, 2⟩ 15000 150 (by decide) (by decide)
            (by norm_num [Dec.toRat]),
          parseAmount_eval _ _ ⟨-15000, 2⟩ (-15000) (-150) (by decide) (by decide)
            (by norm_num [Dec.toRat]), ?_⟩
  intro a v h
  obtain ⟨hD, hRC, hEC, hRD, hED⟩ := parseAmountSigned_markers a
  cases hw : parseAmountSigned "C" a with
  | error e =>
    rw [parseAmount, hw] at h
    simp [Except.map] at h
  | ok w =>
    rw [parseAmount, hw] at h
    simp only [Except.map, Except.ok.injEq] at h
    subst h
    refine ⟨?_, ?_, ?_, ?_, ?_⟩
    · rw [parseAmount, hD, hw]; simp only [Except.map]; rw [parseAmount_toRat_neg]
    · rw [parseAmount, hRC, hw]; simp only [Except.map]; rw [parseAmount_toRat_neg]
    · rw [parseAmount, hEC, hw]; rfl
    · rw [parseAmount, hRD, hw]; rfl
    · rw [parseAmount, hED, hw]; simp only [Except.map]; rw [parseAmount_toRat_neg]

/-- Witness for the sign-rule theorem at the concrete amount `150,00`. -/
theorem parseAmount_sign_rules_witness :
    parseAmount "D" "150,00" = .ok (-150) ∧ parseAmount "RC" "150,00" = .ok (-150) ∧
    parseAmount "EC" "150,00" = .ok 150 ∧ parseAmount "RD" "150,00" = .ok 150 ∧
    parseAmount "ED" "150,00" = .ok (-150) :=
  parseAmount_sign_rules.2.2.2.2 "150,00" 150 parseAmount_sign_rules.2.1

/-- A 2-character marker whose first character is neither `E` nor `R`
fails the reversal/expected check. -/
theorem parseAmountSigned_revmark (d a : String) (c0 c1 : Char)
    (hl : d.toList = [c0, c1]) (hc : ¬(c0 = 'E' ∨ c0 = 'R')) :
    parseAmountSigned d a = .error ("Not a reversal/expected mark: " ++ d) := by
  push_neg at hc
  simp only [parseAmountSigned]
  rw [hl]
  simp [hc.1, hc.2]

/-- A marker that passes the reversal/expected check but whose resulting
debit/credit mark is neither `D` nor `C` fails the mark check. -/
theorem parseAmountSigned_wrongdc (d a : String)
    (h1 : ∀ c0 c1, d.toList = [c0, c1] → (c0 = 'E' ∨ c0 = 'R'))
    (h2 : ¬(resultingDc d = "D" ∨ resultingDc d = "C")) :
    parseAmountSigned d a = .error ("Wrong debit/credit mark: " ++ d) := by
  obtain ⟨l⟩ := d
  match l, h1, h2 with
  | [], _, _ => rfl
  | [c0], _, h2 =>
    have h2' : ¬(String.mk [c0] = "D" ∨ String.mk [c0] = "C") := h2
    show (if ¬(String.mk [c0] = "D" ∨ String.mk [c0] = "C") then
            (Except.error ("Wrong debit/credit mark: " ++ String.mk [c0]) : Except String Dec)
          else
            match bigNumberParseL (replaceFirstComma a.toList) with
            | none => Except.error ("Amount cannot be parsed: " ++ a)
            | some bn =>
              if bn.neg then Except.error ("Positive amount string expected: " ++ a)
              else Except.ok (if String.mk [c0] = "D" then (bnValue bn).neg else bnValue bn)) = _
    rw [if_pos h2']
  | [x, y], h1, h2 =>
    have h2' : ¬(String.mk [y] = "D" ∨ String.mk [y] = "C") := h2
    rcases h1 x y rfl with hx | hx
    · subst hx
      show (if ¬(String.mk [y] = "D" ∨ String.mk [y] = "C") then
            (Except.error ("Wrong debit/credit mark: " ++ String.mk ['E', y]) : Except String Dec)
          else
            match bigNumberParseL (replaceFirstComma a.toList) with
            | none => Except.error ("Amount cannot be parsed: " ++ a)
            | some bn =>
              if bn.neg then Except.error ("Positive amount string expected: " ++ a)
              else Except.ok (if String.mk [y] = "D" then (bnValue bn).neg else bnValue bn)) = _
      rw [if_pos h2']
    · subst hx
      show (if ¬(String.mk [y] = "D" ∨ String.mk [y] = "C") then
            (Except.error ("Wrong debit/credit mark: " ++ String.mk ['R', y]) : Except String Dec)
          else
            match bigNumberParseL (replaceFirstComma a.toList) with
            | none => Except.error ("Amount cannot be parsed: " ++ a)
            | some bn =>
              if bn.neg then Except.error ("Positive amount string expected: " ++ a)
              else Except.ok ((if String.mk [y] = "D" then (bnValue bn).neg else bnValue bn).neg)) = _
      rw [if_pos h2']
  | c0 :: c1 :: c2 :: rest, _, h2 =>
    have h2' : ¬(String.mk (c0 :: c1 :: c2 :: rest) = "D" ∨
                 String.mk (c0 :: c1 :: c2 :: rest) = "C") := h2
    show (if ¬(String.mk (c0 :: c1 :: c2 :: rest) = "D" ∨
               String.mk (c0 :: c1 :: c2 :: rest) = "C") then
            (Except.error ("Wrong debit/credit mark: " ++ String.mk (c0 :: c1 :: c2 :: rest)) :
              Except String Dec)
          else
            match bigNumberParseL (replaceFirstComma a.toList) with
            | none => Except.error ("Amount cannot be parsed: " ++ a)
            | some bn =>
              if bn.neg then Except.error ("Positive amount string expected: " ++ a)
              else Except.ok (if String.mk (c0 :: c1 :: c2 :: rest) = "D" then (bnValue bn).neg
                              else bnValue bn)) = _
    rw [if_pos h2']

/-- When bignumber.js yields NaN for the (comma-replaced) amount string,
`BankAmount.parse` fails whatever the marker is. -/
theorem parseAmountSigned_nan (d a : String)
    (h : bigNumberParseL (replaceFirstComma a.toList) = none) :
    ∃ e, parseAmountSigned d a = .error e := by
  simp only [parseAmountSigned]
  split_ifs <;> first
    | exact ⟨_, rfl⟩
    | exact ⟨_, by rw [h]⟩

/-- When bignumber.js yields a negative (`isNegative`) value for the
amount string, `BankAmount.parse` fails whatever the marker is. -/
theorem parseAmountSigned_negbn (d a : String) (bn : BigNum)
    (h : bigNumberParseL (replaceFirstComma a.toList) = some bn)
    (hneg : bn.neg = true) :
    ∃ e, parseAmountSigned d a = .error e := by
  simp only [parseAmountSigned]
  split_ifs <;> first
    | exact ⟨_, rfl⟩
    | exact ⟨_, by rw [h]; exact if_pos hneg⟩

/-- Every amount string with a leading minus sign makes
`BankAmount.parse` fail (the comma replacement keeps the sign, and
bignumber.js then yields NaN or a negative — `isNegative` — value). -/
theorem parseAmount_minus (d a : String) (h : a.toList.head? = some '-') :
    ∃ e, parseAmount d a = .error e := by
  have hs : ∃ e, parseAmountSigned d a = .error e := by
    cases hbn : bigNumberParseL (replaceFirstComma a.toList) with
    | none => exact parseAmountSigned_nan d a hbn
    | some bn =>
      refine parseAmountSigned_negbn d a bn hbn ?_
      obtain ⟨cs⟩ := a
      cases cs with
      | nil => simp [String.toList] at h
      | cons c r =>
        have hc : c = '-' := by
          have hcr : (c :: r).head? = some '-' := h
          simpa using hcr
        subst hc
        have hh : bigNumberParseL (replaceFirstComma (String.mk ('-' :: r)).toList) =
            (bigNumMag (replaceFirstComma r)).map (fun m => (⟨true, m⟩ : BigNum)) := rfl
        rw [hh] at hbn
        obtain ⟨mm, _, hfm⟩ := Option.map_eq_some'.mp hbn
        rw [← hfm]
  obtain ⟨e, he⟩ := hs
  exact ⟨e, by rw [parseAmount, he]; rfl⟩

/-- C6: the failure families of `BankAmount.parse`: a 2-character marker
not starting with `E`/`R` fails with the reversal/expected error; a marker
passing that check whose resulting debit/credit mark is neither `D` nor
`C` fails with the wrong-mark error; an amount string with a leading
minus sign always fails. -/
theorem parseAmount_failures :
    (∀ dcmark amountStr c0 c1, dcmark.toList = [c0, c1] → ¬(c0 = 'E' ∨ c0 = 'R') →
        parseAmount dcmark amountStr = .error ("Not a reversal/expected mark: " ++ dcmark)) ∧
    (∀ dcmark amountStr, (∀ c0 c1, dcmark.toList = [c0, c1] → (c0 = 'E' ∨ c0 = 'R')) →
        ¬(resultingDc dcmark = "D" ∨ resultingDc dcmark = "C") →
        parseAmount dcmark amountStr = .error ("Wrong debit/credit mark: " ++ dcmark)) ∧
    (∀ dcmark amountStr, amountStr.toList.head? = some '-' →
        ∃ e, parseAmount dcmark amountStr = .error e) := by
  refine ⟨?_, ?_, ?_⟩
  · intro d a c0 c1 hl hc
    rw [parseAmount, parseAmountSigned_revmark d a c0 c1 hl hc]; rfl
  · intro d a h1 h2
    rw [parseAmount, parseAmountSigned_wrongdc d a h1 h2]; rfl
  · exact parseAmount_minus

/-- Witness for the failure-family theorem at the spec's concrete
inputs. -/
theorem parseAmount_failures_witness :
    parseAmount "QD" "5" = .error "Not a reversal/expected mark: QD" ∧
    parseAmount "X" "5" = .error "Wrong debit/credit mark: X" ∧
    (∃ e, parseAmount "C" "-1" = .error e) :=
  ⟨parseAmount_failures.1 "QD" "5" 'Q' 'D' (by decide) (by decide),
   parseAmount_failures.2.1 "X" "5" (by intro c0 c1 h; simp [String.toList] at h)
     (by decide),
   parseAmount_failures.2.2 "C" "-1" (by decide)⟩

/-- C10: `BankAmount.parse` succeeds only for the six markers
`C`, `D`, `EC`, `ED`, `RC`, `RD`: any other marker (empty, another 1- or
2-character string, or any marker of 3+ characters, which is checked whole
as the debit/credit mark) throws before the amount is even considered. -/
theorem parseAmount_marker_whitelist (dcmark amountStr : String) (v : Rat)
    (h : parseAmount dcmark amountStr = .ok v) :
    dcmark ∈ ["C", "D", "EC", "ED", "RC", "RD"] := by
  have hs : ∃ w, parseAmountSigned dcmark amountStr = .ok w := by
    cases hw : parseAmountSigned dcmark amountStr with
    | error e => rw [parseAmount, hw] at h; simp [Except.map] at h
    | ok w => exact ⟨w, rfl⟩
  obtain ⟨w, hw⟩ := hs
  -- the marker's first character passes the E/R check
  have hrev : ∀ c0 c1, dcmark.toList = [c0, c1] → (c0 = 'E' ∨ c0 = 'R') := by
    intro c0 c1 hl
    by_contra hc
    rw [parseAmountSigned_revmark dcmark amountStr c0 c1 hl hc] at hw
    simp at hw
  -- the resulting debit/credit mark is D or C
  have hdc : resultingDc dcmark = "D" ∨ resultingDc dcmark = "C" := by
    by_contra hc
    rw [parseAmountSigned_wrongdc dcmark amountStr hrev hc] at hw
    simp at hw
  obtain ⟨l⟩ := dcmark
  match l, hrev, hdc with
  | [], _, hdc =>
    have : String.mk ([] : List Char) = "D" ∨ String.mk ([] : List Char) = "C" := hdc
    rcases this with h' | h' <;>
      · have := congrArg String.toList h'
        simp at this
  | [c0], _, hdc =>
    have hdc' : String.mk [c0] = "D" ∨ String.mk [c0] = "C" := hdc
    rcases hdc' with h' | h' <;> rw [h'] <;> decide
  | [x, y], hrev, hdc =>
    have hdc' : String.mk [y] = "D" ∨ String.mk [y] = "C" := hdc
    have hy : y = 'D' ∨ y = 'C' := by
      rcases hdc' with h' | h'
      · left
        have := congrArg String.toList h'
        simpa using this
      · right
        have := congrArg String.toList h'
        simpa using this
    rcases hrev x y rfl with hx | hx <;> rcases hy with hy | hy <;>
      subst hx <;> subst hy <;> decide
  | c0 :: c1 :: c2 :: rest, _, hdc =>
    have hdc' : String.mk (c0 :: c1 :: c2 :: rest) = "D" ∨
        String.mk (c0 :: c1 :: c2 :: rest) = "C" := hdc
    rcases hdc' with h' | h' <;>
      · have := congrArg String.toList h'
        simp at this

/-- Witness for the marker whitelist theorem at the marker `C`. -/
theorem parseAmount_marker_whitelist_witness :
    ("C" : String) ∈ ["C", "D", "EC", "ED", "RC", "RD"] :=
  parseAmount_marker_whitelist "C" "150,00" 150
    (by
      rw [parseAmount, show parseAmountSigned "C" "150,00" = .ok ⟨15000, 2⟩ from by decide]
      simp only [Except.map]
      rw [show Dec.mul100 ⟨15000, 2⟩ = ⟨1500000, 2⟩ from by decide,
          show Dec.roundHalfUp ⟨1500000, 2⟩ = 15000 from by decide]
      norm_num [Dec.toRat])

/-- C8: the shared extraction engine is all-or-nothing for every tag rule:
a pattern mismatch is exactly the `Cannot parse tag <id>: <data>` failure,
a projection failure (e.g. a bad amount) propagates as a failure, and a
success is exactly the total projection of a successful match — no partial
field record can be produced. -/
theorem tag_extraction_all_or_nothing {μ φ : Type} (id : String)
    (matcher : String → Option μ) (extract : μ → Except String φ) (data : String) :
    (matcher data = none →
        runTag id matcher extract data = .error ("Cannot parse tag " ++ id ++ ": " ++ data)) ∧
    (∀ m e, matcher data = some m → extract m = .error e →
        runTag id matcher extract data = .error e) ∧
    (∀ f, runTag id matcher extract data = .ok f →
        ∃ m, matcher data = some m ∧ extract m = .ok f) := by
  refine ⟨?_, ?_, ?_⟩
  · intro h
    rw [runTag, h]
  · intro m e hm he
    rw [runTag, hm]
    exact he
  · intro f hf
    rw [runTag] at hf
    cases hm : matcher data with
    | none => rw [hm] at hf; simp at hf
    | some m =>
      rw [hm] at hf
      exact ⟨m, rfl, hf⟩

/-- Witness for the all-or-nothing engine theorem: tag 61 on data its
grammar rejects fails with the engine's error message. -/
theorem tag_extraction_all_or_nothing_witness :
    runTag "61" (fun d => match61 d.toList) extract61 "x" = .error "Cannot parse tag 61: x" :=
  (tag_extraction_all_or_nothing "61" (fun d => match61 d.toList) extract61 "x").1 (by decide)

/-- C4: for every statement line matching the tag 61 grammar whose
projection succeeds, `entryDate` is empty (`none`) exactly when the
optional entry-date group is absent, otherwise it is the date built from
the statement's own 2-digit year (group 1) and the entry's month/day
(groups 5/6); and `isReversal` holds iff the matched mark starts with
`R`. -/
theorem tag61_entryDate_reversal (data : String) (m : Match61)
    (_hm : match61 data.toList = some m) (f : Fields61) (hf : extract61 m = .ok f) :
    (m.g4 = none → f.entryDate = none) ∧
    (∀ mm dd, m.g4 = some (mm, dd) →
        f.entryDate = some (bankDateParse (String.mk m.g1) (String.mk mm) (String.mk dd))) ∧
    (f.isReversal = true ↔ m.g7.head? = some 'R') := by
  rw [extract61] at hf
  cases hpa : parseAmount (String.mk m.g7) (String.mk m.g9) with
  | error e => rw [hpa] at hf; simp at hf
  | ok a =>
    rw [hpa] at hf
    simp only [Except.ok.injEq] at hf
    subst hf
    refine ⟨?_, ?_, ?_⟩
    · intro h4; simp [h4]
    · intro mm dd h4; simp [h4]
    · cases hg : m.g7 with
      | nil => simp
      | cons c t => simp

/-- Witness for the tag 61 field theorem at the sample line. -/
theorem tag61_entryDate_reversal_witness :
    f61ex.entryDate = none ∧ (f61ex.isReversal = true ↔ m61ex.g7.head? = some 'R') := by
  have h := tag61_entryDate_reversal "231201C12,50NTRFREF" m61ex (by decide) f61ex rfl
  exact ⟨h.1 rfl, h.2.2⟩

/-- C7: `BankDate.parse` treats every 2-digit year as 2000-based, and
performs no day/month range validation of its own: `("23","02","29")`
silently normalises to 1 March 2023 under `Date.UTC`'s day-overflow
arithmetic (2023 is not a leap year). -/
theorem bankDateParse_two_digit_years :
    (∀ (y : String) (c1 c2 : Char), y.toList = [c1, c2] → isDig c1 = true → isDig c2 = true →
        ∀ m d, bankDateParse y m d =
          bankDateParseFull (2000 + ((digVal c1 * 10 + digVal c2 : Nat) : Int)) m d) ∧
    bankDateParse "23" "02" "29" = some (daysFromCivil 2023 3 1) := by
  constructor
  · intro y c1 c2 hl h1 h2 m d
    obtain ⟨l⟩ := y
    have hll : l = [c1, c2] := hl
    subst hll
    have hminus : ¬(c1 = '-') := by
      intro h; rw [h] at h1; exact absurd h1 (by decide)
    have hplus : ¬(c1 = '+') := by
      intro h; rw [h] at h1; exact absurd h1 (by decide)
    have hjs : jsParseIntOpt (String.mk [c1, c2]) = some ((digitsToNat [c1, c2] : Int)) := by
      show (if ((if c1 = '-' then ((-1 : Int), [c2]) else if c1 = '+' then ((1 : Int), [c2])
                 else ((1 : Int), [c1, c2])).2.takeWhile isDig).isEmpty then none
            else some ((if c1 = '-' then ((-1 : Int), [c2]) else if c1 = '+' then ((1 : Int), [c2])
                        else ((1 : Int), [c1, c2])).1 *
              (digitsToNat ((if c1 = '-' then ((-1 : Int), [c2])
                             else if c1 = '+' then ((1 : Int), [c2])
                             else ((1 : Int), [c1, c2])).2.takeWhile isDig) : Int))) =
          some ((digitsToNat [c1, c2] : Int))
      rw [if_neg hminus, if_neg hplus]
      simp [List.takeWhile_cons, h1, h2]
    have hd1 : 48 ≤ c1.toNat ∧ c1.toNat ≤ 57 := by simpa [isDig] using h1
    have hd2 : 48 ≤ c2.toNat ∧ c2.toNat ≤ 57 := by simpa [isDig] using h2
    have hlt : (digitsToNat [c1, c2] : Int) < 100 := by
      simp only [digitsToNat, List.foldl, digVal]
      push_cast
      omega
    simp only [bankDateParse, hjs]
    rw [if_pos hlt]
    congr 1
    simp only [digitsToNat, List.foldl, digVal]
    push_cast
    omega
  · decide

/-- Witness for the 2-digit-year theorem at the spec's concrete date. -/
theorem bankDateParse_two_digit_years_witness :
    bankDateParse "23" "02" "29" = bankDateParseFull 2023 "02" "29" := by
  have h := bankDateParse_two_digit_years.1 "23" '2' '3' (by decide) (by decide) (by decide)
    "02" "29"
  rw [show (2000 + ((digVal '2' * 10 + digVal '3' : Nat) : Int)) = 2023 from by decide] at h
  exact h

/-- C5: `createTag` resolution order — the composite string key
(`stringified id + subId`) is looked up first, the bare (coerced) id is
the fallback, and an unresolved pair fails with the unknown-tag error
naming the composite key; in particular `createTag(99, '', 'x')` fails
with `Unknown tag 99`. -/
theorem createTag_resolution :
    (∀ (id : JsVal) (subId : String) (k : TagKind),
        mapGet (.str (fullTagId id subId)) = some k → resolveRule id subId = some k) ∧
    (∀ (id : JsVal) (subId : String),
        mapGet (.str (fullTagId id subId)) = none →
        resolveRule id subId = mapGet (coerceId id)) ∧
    (∀ (id : JsVal) (subId : String) (data : String),
        resolveRule id subId = none →
        createTag id subId data = .error ("Unknown tag " ++ fullTagId id subId)) ∧
    createTag (.num 99) "" "x" = .error "Unknown tag 99" := by
  refine ⟨?_, ?_, ?_, by decide⟩
  · intro id subId k h
    rw [resolveRule, h]
    rfl
  · intro id subId h
    rw [resolveRule, h]
    rfl
  · intro id subId data h
    rw [createTag, h]

/-- Witness for the resolution theorem: the composite key `34F` resolves
to the floor-limit rule. -/
theorem createTag_resolution_witness :
    resolveRule (.str "34") "F" = some .debitAndCreditFloorLimit ∧
    createTag (.num 99) "" "x" = .error "Unknown tag 99" :=
  ⟨createTag_resolution.1 (.str "34") "F" .debitAndCreditFloorLimit (by decide),
   createTag_resolution.2.2.2⟩

/-- C2 (counterexample): on `-`-terminator input embedded after blocks,
the claimed field record is NOT produced: block 2's content is `abc\x7d-`
(the lazy content extends to the final brace because the `^`-anchored
terminator alternative cannot match past position 0) and no `EOB` field
exists. -/
theorem tagMB_example_counterexample :
    (parseTagMB "\x7b1:F01BANKXXXX\x7d\x7b2:abc\x7d-\x7d").map
        (fun r => (r.fields.lookup "2", r.fields.lookup "EOB")) ≠
      .ok (some "abc", some "") := by decide

/-- C2 (amended): the MB rule scans the whole text repeatedly; on
`"\x7b1:F01BANKXXXX\x7d\x7b2:abc\x7d-\x7d"` it yields
`1 ↦ F01BANKXXXX`, `2 ↦ abc\x7d-` and no `EOB` field (with
`isStarting = true`); the `EOB` field is produced only when the
terminator `-\x7d` stands at the very start of the text; and
`isStarting` is set iff a block numbered `1` was found. -/
theorem tagMB_scan_amended :
    parseTagMB "\x7b1:F01BANKXXXX\x7d\x7b2:abc\x7d-\x7d" =
      .ok ⟨[("1", "F01BANKXXXX"), ("2", "abc\x7d-")], true⟩ ∧
    parseTagMB "-\x7d\x7b1:xy\x7d" = .ok ⟨[("EOB", ""), ("1", "xy")], true⟩ ∧
    parseTagMB "-\x7d" = .ok ⟨[("EOB", "")], false⟩ ∧
    (∀ data r, parseTagMB data = .ok r → r.isStarting = (r.fields.lookup "1").isSome) := by
  refine ⟨by decide, by decide, by decide, ?_⟩
  intro data r h
  simp only [parseTagMB, runTag] at h
  cases hm : mbNextMatch true data.toList with
  | none => rw [hm] at h; simp at h
  | some m =>
    rw [hm] at h
    simp only [Except.ok.injEq] at h
    subst h
    rfl

/-- Witness for the amended MB theorem: `isStarting` agrees with the
presence of a block numbered 1 on the pure-terminator input. -/
theorem tagMB_scan_amended_witness :
    (⟨[("EOB", "")], false⟩ : FieldsMB).isStarting =
      (([("EOB", "")] : List (String × String)).lookup "1").isSome :=
  tagMB_scan_amended.2.2.2 "-\x7d" ⟨[("EOB", "")], false⟩ tagMB_scan_amended.2.2.1

/-- C9 (counterexample): tag 20's pattern `^(.{0,16})` stops at a line
terminator (`.` does not match `\n`), so the field is NOT always the
input truncated to 16 characters: on `"a\nb"` (length 3) it captures only
`"a"`. -/
theorem tag20_newline_counterexample :
    parseTag20 "a\nb" ≠ .ok ⟨"a\nb"⟩ := by decide

/-- C9 (amended): tags 20, 21, 25, NS and 86 never fail — their patterns
match every input, including the empty string — and produce a single
string field: the prefix of the first line truncated to 16, 16, 35 and
unbounded length respectively; tag 86 (`[\s\S]{0,390}`) alone keeps line
terminators and is the raw input truncated to 390 characters. -/
theorem tags_free_text_amended (data : String) :
    parseTag20 data = .ok ⟨String.mk ((data.toList.takeWhile dotChar).take 16)⟩ ∧
    parseTag21 data = .ok ⟨String.mk ((data.toList.takeWhile dotChar).take 16)⟩ ∧
    parseTag25 data = .ok ⟨String.mk ((data.toList.takeWhile dotChar).take 35)⟩ ∧
    parseTagNS data = .ok ⟨String.mk (data.toList.takeWhile dotChar)⟩ ∧
    parseTag86 data = .ok ⟨String.mk (data.toList.take 390)⟩ :=
  ⟨rfl, rfl, rfl, rfl, rfl⟩
